import Mathlib

/-!
Verification of the formula-evaluation / weighted-aggregation engine of the
Meinhardt assessment web application.

The definitions below are a shallow embedding of the Python source:

* `smart_calculation_engine_updated.py` — `SmartCalculationEngine`
  (`clean_text`, `find_matching_dps`, `_score_dp_match_enhanced`,
  `calculate_quantitative_proper`, `_calculate_fallback`,
  `_apply_thresholds_smart`, `aggregate_to_ps`, `aggregate_to_kt`);
* `formula_parser_complete.py` — `WeightedAggregator`
  (`aggregate_to_kt`, `calculate_overall`);
* `evaluate_main_ag.py` — the data-point substitution loop feeding `eval`.

Machine floats are modelled by `Rat` (the engine performs only field
arithmetic with small operand counts, and every property proved or refuted
here is scale-robust, not float-rounding-sensitive).  Python strings are
modelled by `String`/`List Char`; the string helpers below implement the
exact regular expressions used by the source, specialised to ASCII text
(the source's `unicodedata`-based cleaning maps the ASCII space and control
characters to a space, which is what `py_clean_spaces` does).
Python `dict`s are modelled by association lists (`List (String × _)`)
with first-match lookup, which agrees with `dict` since keys are unique.
-/

attribute [local semireducible] Rat.mul Rat.add Rat.inv Rat.sub Rat.ofScientific

/-! ## ASCII string utilities mirroring the Python string operations -/

/-- Python `str.lower()` for ASCII characters. -/
def lowerChar (c : Char) : Char :=
  if 65 ≤ c.toNat ∧ c.toNat ≤ 90 then Char.ofNat (c.toNat + 32) else c

/-- Python `str.lower()` on a character list. -/
def lowerList (cs : List Char) : List Char := cs.map lowerChar

/-- Python `str.strip()`: drop leading and trailing whitespace. -/
def pyStrip (cs : List Char) : List Char :=
  ((cs.dropWhile Char.isWhitespace).reverse.dropWhile Char.isWhitespace).reverse

/-- Python `needle in hay` substring test. -/
def containsSub (hay needle : List Char) : Bool :=
  match hay with
  | [] => needle.isEmpty
  | _ :: t => needle.isPrefixOf hay || containsSub t needle

/-- A `\w` word character in the ASCII range: letter, digit or underscore. -/
def isWordChar (c : Char) : Bool := c.isAlphanum || c = '_'

/-- `re.sub(r'[^\w\s]', ' ', s).split()`: replace punctuation by spaces and
split on whitespace runs, dropping empty pieces. -/
def pyWords (cs : List Char) : List String :=
  ((cs.map fun c => if isWordChar c || c.isWhitespace then c else ' ').splitOnP
      Char.isWhitespace).map List.asString |>.filter (· ≠ "")

/-- Python `' '.join(pieces)`. -/
def joinSpace (pieces : List String) : List Char :=
  match pieces with
  | [] => []
  | [p] => p.toList
  | p :: rest => p.toList ++ ' ' :: joinSpace rest

/-- `str.replace(pat, repl)` with all occurrences replaced left to right;
`fuel` is consumed one unit per scanned character. -/
def replaceAllAux (fuel : Nat) (hay needle repl : List Char) : List Char :=
  match fuel, hay with
  | 0, h => h
  | _ + 1, [] => []
  | f + 1, c :: t =>
    if needle.isPrefixOf (c :: t) && !needle.isEmpty then
      repl ++ replaceAllAux f ((c :: t).drop needle.length) needle repl
    else
      c :: replaceAllAux f t needle repl

/-- Python `s.replace(pat, repl)` (for a non-empty pattern). -/
def pyReplace (s pat repl : String) : String :=
  (replaceAllAux s.toList.length s.toList pat.toList repl.toList).asString

/-- Ascending lexicographic order on ASCII strings (Python `sorted`). -/
def strLtChars : List Char → List Char → Bool
  | [], [] => false
  | [], _ :: _ => true
  | _ :: _, [] => false
  | a :: as, b :: bs => a.toNat < b.toNat || (a = b && strLtChars as bs)

/-- Insertion into an ascending list, used to model Python `sorted`. -/
def insertStr (s : String) : List String → List String
  | [] => [s]
  | t :: ts => if strLtChars s.toList t.toList then s :: t :: ts else t :: insertStr s ts

/-- Python `sorted` on a list of strings. -/
def sortStrings (l : List String) : List String := l.foldr insertStr []

/-- Parse a decimal literal the way Python `float` does for plain decimals:
optional sign, then digits with an optional single decimal point.
(The thresholds in the data use only this plain-decimal form; strings
outside it are treated as unparseable.) -/
def parseFloat (cs0 : List Char) : Option Rat :=
  let cs := pyStrip cs0
  let signAndRest : Rat × List Char :=
    match cs with
    | '+' :: t => (1, t)
    | '-' :: t => (-1, t)
    | t => (1, t)
  let sign := signAndRest.1
  let cs1 := signAndRest.2
  let intPart := cs1.takeWhile Char.isDigit
  let rest := cs1.drop intPart.length
  let digitsVal : List Char → Nat := fun l => l.foldl (fun n c => 10 * n + (c.toNat - 48)) 0
  match rest with
  | [] => if intPart.isEmpty then none else some (sign * (digitsVal intPart : Rat))
  | '.' :: frac =>
    let fracD := frac.takeWhile Char.isDigit
    if !(frac.drop fracD.length).isEmpty then none
    else if intPart.isEmpty && fracD.isEmpty then none
    else some (sign * ((digitsVal intPart : Rat) +
      (digitsVal fracD : Rat) / ((10 : Rat) ^ fracD.length)))
  | _ => none

/-! ## Rating classifier: `SmartCalculationEngine._apply_thresholds_smart`

`parse_threshold` returns `.ok (some spec)` for a parsed threshold,
`.ok none` where the Python helper returns `(None, None)` (treated as
"does not match"), and `.error ()` where the Python code raises an
exception out of `_apply_thresholds_smart` (a `ValueError` from `float()`
after a comparison prefix, or the `TypeError` from unpacking the implicit
`None` returned for a string containing `-` that does not split in two). -/

/-- The three assessment-criterion threshold expressions
(`thresholds['good']`, `['satisfactory']`, `['needs_improvement']`). -/
structure Thresholds where
  good : String
  satisfactory : String
  needsImprovement : String
deriving DecidableEq

/-- A parsed threshold: comparison operator plus bound, or a closed range. -/
inductive ThreshSpec where
  | gt (v : Rat)
  | ge (v : Rat)
  | lt (v : Rat)
  | le (v : Rat)
  | range (lo hi : Rat)
deriving DecidableEq

/-- `%`-aware scaling: `if has_percent and val > 1: val = val / 100`. -/
def pctAdjust (hasPct : Bool) (v : Rat) : Rat :=
  if hasPct = true ∧ 1 < v then v / 100 else v

/-- `SmartCalculationEngine._apply_thresholds_smart.parse_threshold`. -/
def parse_threshold (s : String) : Except Unit (Option ThreshSpec) :=
  if s = "" then .ok none
  else
    let t0 := pyStrip s.toList
    let hasPct := t0.contains '%'
    let t1 := pyStrip (t0.filter (· ≠ '%'))
    match t1 with
    | '>' :: '=' :: rest =>
      match parseFloat (pyStrip rest) with
      | some v => .ok (some (.ge (pctAdjust hasPct v)))
      | none => .error ()
    | '>' :: rest =>
      match parseFloat (pyStrip rest) with
      | some v => .ok (some (.gt (pctAdjust hasPct v)))
      | none => .error ()
    | '<' :: '=' :: rest =>
      match parseFloat (pyStrip rest) with
      | some v => .ok (some (.le (pctAdjust hasPct v)))
      | none => .error ()
    | '<' :: rest =>
      match parseFloat (pyStrip rest) with
      | some v => .ok (some (.lt (pctAdjust hasPct v)))
      | none => .error ()
    | _ =>
      if t1.contains '-' then
        match t1.splitOn '-' with
        | [p0, p1] =>
          match parseFloat (pyStrip p0), parseFloat (pyStrip p1) with
          | some lo, some hi =>
            if hasPct = true ∧ 1 < lo then .ok (some (.range (lo / 100) (hi / 100)))
            else .ok (some (.range lo hi))
          | _, _ => .ok none
        | _ => .error ()
      else
        match parseFloat t1 with
        | some v => .ok (some (.ge (pctAdjust hasPct v)))
        | none => .ok none

/-- The checks applied to the parsed `good` threshold (source handles the
operators `>`, `>=` and ranges here; `<`/`<=` never match for Good). -/
def good_matches (v : Rat) : Option ThreshSpec → Bool
  | some (.gt t) => t < v
  | some (.ge t) => t ≤ v
  | some (.range lo hi) => lo ≤ v ∧ v ≤ hi
  | _ => false

/-- The checks applied to the parsed `satisfactory` threshold
(ranges, `>=`, `>`; `<`/`<=` never match for Satisfactory). -/
def sat_matches (v : Rat) : Option ThreshSpec → Bool
  | some (.range lo hi) => lo ≤ v ∧ v ≤ hi
  | some (.ge t) => t ≤ v
  | some (.gt t) => t < v
  | _ => false

/-- The checks applied to the parsed `needs_improvement` threshold
(only `<` and `<=` can match here). -/
def needs_matches (v : Rat) : Option ThreshSpec → Bool
  | some (.lt t) => v < t
  | some (.le t) => v ≤ t
  | _ => false

/-- The hard-coded default bands used when no thresholds are supplied and as
the final fallback: `>= 0.9` Good, `>= 0.7` Satisfactory, else Needs
Improvement. -/
def default_band (v : Rat) : String :=
  if 9/10 ≤ v then "Good"
  else if 7/10 ≤ v then "Satisfactory"
  else "Needs Improvement"

/-- `not thresholds or not any(thresholds.values())`: every threshold
string empty. -/
def all_empty (th : Thresholds) : Bool :=
  th.good = "" ∧ th.satisfactory = "" ∧ th.needsImprovement = ""

/-- `SmartCalculationEngine._apply_thresholds_smart`.  `.error ()` models a
Python exception escaping the method (possible only for malformed
threshold strings, which are parsed without any enclosing `try`). -/
def apply_thresholds_smart (v : Rat) (th : Thresholds) : Except Unit String :=
  if all_empty th then .ok (default_band v)
  else
    match parse_threshold th.good with
    | .error e => .error e
    | .ok g =>
      if good_matches v g then .ok "Good"
      else
        match parse_threshold th.satisfactory with
        | .error e => .error e
        | .ok s =>
          if sat_matches v s then .ok "Satisfactory"
          else
            match parse_threshold th.needsImprovement with
            | .error e => .error e
            | .ok n =>
              if needs_matches v n then .ok "Needs Improvement"
              else .ok (default_band v)

/-- A threshold triple is well formed when all three strings parse without
raising (empty strings and unparseable-but-caught strings count as parsed
`None`, exactly as in the source). -/
def well_formed (th : Thresholds) : Bool :=
  (parse_threshold th.good).toBool && (parse_threshold th.satisfactory).toBool &&
    (parse_threshold th.needsImprovement).toBool

/-- `good_matches` read off the raw threshold strings (false when the
string does not parse). -/
def good_matches_th (v : Rat) (th : Thresholds) : Bool :=
  match parse_threshold th.good with
  | .ok g => good_matches v g
  | .error _ => false

/-- `sat_matches` read off the raw threshold strings. -/
def sat_matches_th (v : Rat) (th : Thresholds) : Bool :=
  match parse_threshold th.satisfactory with
  | .ok s => sat_matches v s
  | .error _ => false

/-- `needs_matches` read off the raw threshold strings. -/
def needs_matches_th (v : Rat) (th : Thresholds) : Bool :=
  match parse_threshold th.needsImprovement with
  | .ok n => needs_matches v n
  | .error _ => false

/-! ## Substituted arithmetic expressions and the engine's `eval` wrapper

After data-point substitution, `calculate_quantitative_proper` strips the
formula down to digits, `+ - * /`, parentheses, dots and spaces
(`_clean_formula_for_eval` plus the letter-stripping `re.sub` at the call
site) and hands the string to Python `eval`.  `Expr` is the abstract
syntax of exactly those arithmetic expressions; `pyEval` is Python's eager
evaluation of one, whose only failure mode is `ZeroDivisionError`. -/

/-- Arithmetic expressions reachable by `eval` at
`smart_calculation_engine_updated.py:347`: numbers, `+ - * /` and unary
minus (parentheses are grouping only). -/
inductive Expr where
  | num (q : Rat)
  | neg (e : Expr)
  | add (l r : Expr)
  | sub (l r : Expr)
  | mul (l r : Expr)
  | div (l r : Expr)
deriving DecidableEq

/-- Python's evaluation of an arithmetic expression: eager, with
`ZeroDivisionError` (modelled as `.error ()`) on any division whose
denominator evaluates to zero. -/
def pyEval : Expr → Except Unit Rat
  | .num q => .ok q
  | .neg e =>
    match pyEval e with
    | .ok a => .ok (-a)
    | .error e => .error e
  | .add l r =>
    match pyEval l, pyEval r with
    | .ok a, .ok b => .ok (a + b)
    | _, _ => .error ()
  | .sub l r =>
    match pyEval l, pyEval r with
    | .ok a, .ok b => .ok (a - b)
    | _, _ => .error ()
  | .mul l r =>
    match pyEval l, pyEval r with
    | .ok a, .ok b => .ok (a * b)
    | _, _ => .error ()
  | .div l r =>
    match pyEval l, pyEval r with
    | .ok a, .ok b => if b = 0 then .error () else .ok (a / b)
    | _, _ => .error ()

/-- The expression contains a division by zero that eager evaluation
reaches: some `div` node whose subexpressions evaluate and whose
denominator is zero (or a nested one). -/
def hitsDivByZero : Expr → Bool
  | .num _ => false
  | .neg e => hitsDivByZero e
  | .add l r => hitsDivByZero l || hitsDivByZero r
  | .sub l r => hitsDivByZero l || hitsDivByZero r
  | .mul l r => hitsDivByZero l || hitsDivByZero r
  | .div l r =>
    hitsDivByZero l || hitsDivByZero r ||
      (match pyEval l, pyEval r with
       | .ok _, .ok b => b = 0
       | _, _ => false)

/-- The result dictionary of `calculate_quantitative_proper` (the fields
the claims are about). -/
structure CalcResult where
  value : Rat
  rating : String
  hasIssues : Bool
  warning : Option String
deriving DecidableEq

/-- Lines 341-375 of `smart_calculation_engine_updated.py`: evaluate the
substituted arithmetic expression and rate it inside `try`; any exception
(`ZeroDivisionError` from `eval`, or a threshold-parse error inside
`_apply_thresholds_smart`) is caught and turned into the sentinel result
`{'value': 0.0, 'rating': 'N/A', 'has_issues': True, 'warning':
'Calculation error: ...'}` (the warning's appended Python exception text is
not modelled). -/
def smart_engine_eval_step (e : Expr) (th : Thresholds) : CalcResult :=
  match pyEval e with
  | .error _ => ⟨0, "N/A", true, some "Calculation error"⟩
  | .ok v =>
    match apply_thresholds_smart v th with
    | .ok rating => ⟨v, rating, false, none⟩
    | .error _ => ⟨0, "N/A", true, some "Calculation error"⟩

/-! ## Formula matcher: `clean_text`, `_score_dp_match_enhanced`,
`find_matching_dps`

Python `set`s of words are modelled as deduplicated lists: membership and
cardinality (all the source uses them for, besides one `sorted` traversal)
agree with the set semantics. -/

/-- The character loop of `clean_text`: space-category and control
characters (for ASCII: space, codes below 32, delete, and the non-breaking
space the source lists explicitly) become a plain space. -/
def py_clean_spaces (cs : List Char) : List Char :=
  cs.map fun c =>
    if c = ' ' || c.toNat < 32 || c.toNat = 127 || c.toNat = 160 then ' ' else c

/-- Python `s.split()`: split on whitespace runs, no empty pieces. -/
def splitWs (cs : List Char) : List String :=
  ((cs.splitOnP Char.isWhitespace).map List.asString).filter (· ≠ "")

/-- The mojibake artifact strings removed by `clean_text`. -/
def clean_artifacts : List String :=
  ["Â", "â€™", "â€œ", "â€", "Ã", "Ã¢", "â", "™", "˜"]

/-- `SmartCalculationEngine.clean_text`. -/
def clean_text (s : String) : String :=
  let cleaned := (py_clean_spaces s.toList).asString
  let cleaned := clean_artifacts.foldl (fun acc a => pyReplace acc a "") cleaned
  (joinSpace (splitWs cleaned.toList)).asString

/-- `re.sub(r'\s*\([^)]*\)\s*$', '', dp_name).strip()`: strip one trailing
parenthetical suffix (whose content contains no `)`), plus surrounding
whitespace. -/
def stripTrailingParen (s : String) : String :=
  let r := s.toList.reverse
  let r1 := r.dropWhile Char.isWhitespace
  match r1 with
  | ')' :: rest =>
    let content := rest.takeWhile fun c => c ≠ '(' && c ≠ ')'
    match rest.drop content.length with
    | '(' :: rest3 => (pyStrip ((rest3.dropWhile Char.isWhitespace).reverse)).asString
    | _ => (pyStrip s.toList).asString
  | _ => (pyStrip s.toList).asString

/-- `re.findall(r'\(([A-Z]+[A-Z0-9]*)\)', dp_name)`: every parenthesised
uppercase abbreviation, scanning left to right. -/
def extract_abbrevs : List Char → List String
  | [] => []
  | '(' :: rest =>
    let u := rest.takeWhile Char.isUpper
    if u.isEmpty then extract_abbrevs rest
    else
      let d := (rest.drop u.length).takeWhile fun c => c.isUpper || c.isDigit
      match (rest.drop u.length).drop d.length with
      | ')' :: _ => (u ++ d).asString :: extract_abbrevs rest
      | _ => extract_abbrevs rest
  | _ :: rest => extract_abbrevs rest

/-- Occurrence of `needle` in `hay` with `\b` word boundaries on both
sides (`prev` is the character just before the current position). -/
def wordBoundaryAux (needle : List Char) (prev : Option Char) : List Char → Bool
  | [] => false
  | c :: t =>
    (needle.isPrefixOf (c :: t) && !needle.isEmpty &&
      (match prev with
       | none => true
       | some p => !isWordChar p) &&
      (match (c :: t).drop needle.length with
       | [] => true
       | a :: _ => !isWordChar a)) ||
    wordBoundaryAux needle (some c) t

/-- `re.search(r'\bABBREV\b', hay)` for an alphanumeric `ABBREV`. -/
def wordBoundaryContains (hay needle : List Char) : Bool :=
  wordBoundaryAux needle none hay

/-- The five case-insensitive abbreviation patterns tried by
`_score_dp_match_enhanced`: `\(A\)`, `\[A\]`, `A/`, `/A`, `\bA\b`. -/
def abbrev_patterns_match (formula ab : String) : Bool :=
  let f := lowerList formula.toList
  let a := lowerList ab.toList
  containsSub f ('(' :: (a ++ [')'])) ||
  containsSub f ('[' :: (a ++ [']'])) ||
  containsSub f (a ++ ['/']) ||
  containsSub f ('/' :: a) ||
  wordBoundaryContains f a

/-- Stop words removed from formula words in `find_matching_dps`. -/
def stop_words : List String :=
  ["the", "of", "and", "for", "with", "from", "to", "in", "on", "at", "by"]

/-- Generic words removed from data-point words in
`_score_dp_match_enhanced`. -/
def dp_stop_words : List String :=
  ["the", "of", "and", "for", "value", "number", "total"]

/-- The domain-significant keywords that trigger the 1.3 boost. -/
def important_keywords : List String :=
  ["earned", "planned", "actual", "budget", "cost", "value",
   "milestone", "completion", "approved", "original", "latest",
   "construction", "gfa", "bua", "cgi", "modularized", "risk"]

/-- The important formula-word set computed in `find_matching_dps`:
lower-cased cleaned-formula words minus the stop words. -/
def formula_words_important (formulaClean : String) : List String :=
  ((pyWords (lowerList formulaClean.toList)).dedup).filter
    fun w => !decide (w ∈ stop_words)

/-- Step 2 of `_score_dp_match_enhanced` (base name is a substring of the
formula): `max(0.95, min(0.85 + coverage*0.1, 0.98))` with coverage the
character-length ratio. -/
def score_substring (baseLower formulaLower : List Char) : Rat :=
  max (95/100)
    (min (85/100 +
        (if formulaLower ≠ [] then (baseLower.length : Rat) / (formulaLower.length : Rat)
         else 0) * (1/10))
      (98/100))

/-- Step 4 of `_score_dp_match_enhanced` (all formula words appear among
the data-point words): `max(score, 0.75 + coverage*0.15)` starting from
score 0. -/
def score_subset (formulaWords dpWords : List String) : Rat :=
  if formulaWords ≠ [] ∧ formulaWords.all (fun w => decide (w ∈ dpWords)) = true then
    max 0 (75/100 +
      (if dpWords ≠ [] then (formulaWords.length : Rat) / (dpWords.length : Rat)
       else 0) * (15/100))
  else 0

/-- `common = dp_words_important & formula_words`: the word overlap used
in step 5 of `_score_dp_match_enhanced`. -/
def overlap_common (formulaWords dpWordsImportant : List String) : List String :=
  dpWordsImportant.filter fun w => decide (w ∈ formulaWords)

/-- Step 5 of `_score_dp_match_enhanced` (boosted word overlap):
`max(score, (formula_coverage*0.8 + dp_coverage*0.2) * 0.85 * boost)`
with boost 1.3 when the overlap contains a domain keyword. -/
def score_overlap (score1 : Rat) (formulaWords dpWordsImportant : List String) : Rat :=
  if dpWordsImportant ≠ [] ∧ formulaWords ≠ [] then
    if overlap_common formulaWords dpWordsImportant ≠ [] then
      max score1
        (((if formulaWords ≠ [] then
              ((overlap_common formulaWords dpWordsImportant).length : Rat) /
                (formulaWords.length : Rat)
           else 0) * (8/10) +
          (if dpWordsImportant ≠ [] then
              ((overlap_common formulaWords dpWordsImportant).length : Rat) /
                (dpWordsImportant.length : Rat)
           else 0) * (2/10)) * (85/100) *
          (if (overlap_common formulaWords dpWordsImportant).any
              (fun w => decide (w ∈ important_keywords)) then 13/10 else 1))
    else score1
  else score1

/-- The lower-cased suffix-stripped base name of a data point, shared by
the scoring steps. -/
def base_lower (dpName : String) : List Char :=
  lowerList (stripTrailingParen dpName).toList

/-- The data-point word set of `_score_dp_match_enhanced`. -/
def dp_words (dpName : String) : List String :=
  (pyWords (base_lower dpName)).dedup

/-- The important data-point word set (generic words removed). -/
def dp_words_important (dpName : String) : List String :=
  (dp_words dpName).filter fun w => !decide (w ∈ dp_stop_words)

/-- `SmartCalculationEngine._score_dp_match_enhanced dp_name formula
formula_words`:  abbreviation patterns first (0.98), then base-name
substring, then sorted formula words as substring of the base name
(0.93), then the subset and boosted-overlap steps starting from score
0. -/
def score_dp_match_enhanced (dpName formula : String)
    (formulaWords : List String) : Rat :=
  if (extract_abbrevs dpName.toList).any (fun a => abbrev_patterns_match formula a) then
    98/100
  else if containsSub (lowerList formula.toList) (base_lower dpName) then
    score_substring (base_lower dpName) (lowerList formula.toList)
  else if containsSub (base_lower dpName) (joinSpace (sortStrings formulaWords)) then
    93/100
  else
    score_overlap (score_subset formulaWords (dp_words dpName)) formulaWords
      (dp_words_important dpName)

/-- `SmartCalculationEngine.find_matching_dps`: keep every available data
point whose enhanced match score is at least the 0.3 keep-threshold. -/
def find_matching_dps {α : Type} (formula : String)
    (dpValues : List (String × α)) : List (String × α) :=
  let formulaClean := clean_text formula
  let fw := formula_words_important formulaClean
  dpValues.filter fun nv => decide (3/10 ≤ score_dp_match_enhanced nv.1 formulaClean fw)

/-- `SmartCalculationEngine._calculate_fallback`: rate the hard-coded
default value 0.85 against the thresholds and report it as a non-issue
(`has_issues` false). `.error` models a threshold-parse exception escaping
the helper. -/
def calculate_fallback (th : Thresholds) : Except Unit CalcResult :=
  match apply_thresholds_smart (85/100) th with
  | .ok rating => .ok ⟨85/100, rating, false, some "Used fallback calculation"⟩
  | .error e => .error e

/-- The no-match path of `calculate_quantitative_proper` (lines 289-290):
when `find_matching_dps` returns no matches the engine answers with
`_calculate_fallback`, the enclosing `try` of lines 280-394 turning any
exception into the zero/error dictionary.  `none` means matches were found
and the evaluator continues with substitution instead. -/
def calc_quant_no_match_result {α : Type} (formula : String)
    (dpValues : List (String × α)) (th : Thresholds) : Option CalcResult :=
  if (find_matching_dps formula dpValues).isEmpty then
    some (match calculate_fallback th with
          | .ok r => r
          | .error _ => ⟨0, "N/A", true, some "Formula processing error"⟩)
  else none

/-! ## `evaluate_main_ag`: data-point substitution feeding `eval`

`evaluate_main_ag.py` extracts `[A-Z]+[-_]+DP[-_]+\d+` references from the
formula, replaces the resolvable ones by their submitted values, and passes
the resulting string to Python `eval` (line 53) unless some reference was
missing.  The regex is implemented by a deterministic greedy matcher,
which coincides with `re.findall` for this pattern because each quantified
character class is disjoint from what follows it. -/

/-- A dash-or-underscore separator character (`[-_]`). -/
def isDashChar (c : Char) : Bool := c = '-' || c = '_'

/-- Length of a `[A-Z]+[-_]+DP[-_]+\d+` match starting at the head of the
list, if any. -/
def dpRefMatchLen (cs : List Char) : Option Nat :=
  let u := cs.takeWhile Char.isUpper
  if u.isEmpty then none
  else
    let rest1 := cs.drop u.length
    let d1 := rest1.takeWhile isDashChar
    if d1.isEmpty then none
    else
      match rest1.drop d1.length with
      | 'D' :: 'P' :: rest3 =>
        let d2 := rest3.takeWhile isDashChar
        if d2.isEmpty then none
        else
          let dig := (rest3.drop d2.length).takeWhile Char.isDigit
          if dig.isEmpty then none
          else some (u.length + d1.length + 2 + d2.length + dig.length)
      | _ => none

/-- Scanner for `re.findall(r"[A-Z]+[-_]+DP[-_]+\d+", formula)`: the fuel
(one unit per consumed character) makes the recursion structural. -/
def findDPRefsAux : Nat → List Char → List String
  | 0, _ => []
  | _ + 1, [] => []
  | f + 1, c :: rest =>
    match dpRefMatchLen (c :: rest) with
    | some n => ((c :: rest).take n).asString :: findDPRefsAux f (rest.drop (n - 1))
    | none => findDPRefsAux f rest

/-- `re.findall(r"[A-Z]+[-_]+DP[-_]+\d+", formula)`: non-overlapping
matches scanning left to right, resuming after each match. -/
def findDPRefs (cs : List Char) : List String := findDPRefsAux cs.length cs

/-- The substitution loop of `evaluate_main_ag` (lines 43-48): normalise
each referenced variable (`_` to `-`), replace it in the formula by its
submitted value when present (values arrive already rendered by `str`),
and record it as missing otherwise. -/
def mainAgSubst (vars : List String) (inputs : List (String × String))
    (formula : String) : List String × String :=
  vars.foldl
    (fun acc var =>
      let norm := pyReplace var "_" "-"
      match inputs.lookup norm with
      | some v => (acc.1, pyReplace acc.2 var v)
      | none => (acc.1 ++ [norm], acc.2))
    ([], formula)

/-- The exact string handed to Python `eval` at `evaluate_main_ag.py:53`,
or `none` when missing references raise first (lines 51-52) and `eval` is
never reached. -/
def mainAgEvalArg (formula : String) (inputs : List (String × String)) :
    Option String :=
  let r := mainAgSubst (findDPRefs formula.toList) inputs formula
  if r.1.isEmpty then some r.2 else none

/-- The restricted arithmetic alphabet required by the specification:
digits, `+ - * /`, parentheses, decimal point and space. -/
def isArithOnlyStr (s : String) : Bool :=
  s.toList.all fun c =>
    c.isDigit || c = '+' || c = '-' || c = '*' || c = '/' ||
      c = '(' || c = ')' || c = '.' || c = ' '

/-! ## Aggregators

`SmartCalculationEngine.aggregate_to_ps` / `aggregate_to_kt` (decimal
scale) and `WeightedAggregator.aggregate_to_kt` / `calculate_overall`
(percent scale).  A result dictionary's `value` can be a number or a
string (qualitative labels), modelled by `Value`. -/

/-- A result value: numeric, or a qualitative/descriptive label. -/
inductive Value where
  | num (q : Rat)
  | str (s : String)
deriving DecidableEq

/-- The fields of an AC result dictionary consumed by `aggregate_to_ps`:
`value`, `needs_review` (default false) and `type` (default empty). -/
structure ACResult where
  value : Value
  needsReview : Bool
  typ : String
deriving DecidableEq

/-- The result of a PS/KT aggregation: `value` and `rating` always,
`error` on the no-valid-children paths, `note` when ACs were skipped. -/
structure AggOutcome where
  value : Rat
  rating : String
  error : Option String
  note : Option String
deriving DecidableEq

/-- `float(ac_data.get('weight', 1.0) or 1.0)`: a missing entry defaults
to 1.0, and so does a stored weight of 0 (Python `or` on a falsy value). -/
def acWeight (db : List (String × Rat)) (name : String) : Rat :=
  match db.lookup name with
  | none => 1
  | some w => if w = 0 then 1 else w

/-- Loop state of `aggregate_to_ps`: `weighted_sum`, `total_weight`,
`has_values`, and the length of `skipped_acs`. -/
structure PSAcc where
  ws : Rat
  tw : Rat
  has : Bool
  sk : Nat
deriving DecidableEq

/-- One iteration of the `aggregate_to_ps` loop (lines 614-631): children
with a numeric value strictly greater than 0 and no `needs_review` flag
are accumulated; positive-valued flagged children and qualitative or
descriptive children are counted as skipped; everything else (absent,
non-numeric with another type, numeric and not positive) is passed over
silently. -/
def psStep (db : List (String × Rat)) (res : List (String × ACResult))
    (acc : PSAcc) (name : String) : PSAcc :=
  match res.lookup name with
  | none => acc
  | some r =>
    let w := acWeight db name
    match r.value with
    | .num v =>
      if 0 < v then
        if r.needsReview then { acc with sk := acc.sk + 1 }
        else ⟨acc.ws + v * w, acc.tw + w, true, acc.sk⟩
      else if r.typ = "qualitative" ∨ r.typ = "descriptive" then
        { acc with sk := acc.sk + 1 }
      else acc
    | .str _ =>
      if r.typ = "qualitative" ∨ r.typ = "descriptive" then
        { acc with sk := acc.sk + 1 }
      else acc

/-- `SmartCalculationEngine.aggregate_to_ps` for a located PS with child
list `psAcs` and thresholds `psTh` (the `'PS not found'` guard for an
unknown PS name is resolved by the caller).  `.error ()` models a
threshold-parse exception escaping the method, which performs the rating
call outside any `try`. -/
def aggregate_to_ps (psAcs : List String) (psTh : Thresholds)
    (db : List (String × Rat)) (res : List (String × ACResult)) :
    Except Unit AggOutcome :=
  if psAcs.isEmpty then .ok ⟨0, "N/A", some "No ACs found for PS", none⟩
  else
    let a := psAcs.foldl (psStep db res) ⟨0, 0, false, 0⟩
    if 0 < a.tw ∧ a.has = true then
      match apply_thresholds_smart (a.ws / a.tw) psTh with
      | .ok rating =>
        .ok ⟨a.ws / a.tw, rating, none,
          if 0 < a.sk then some ("Skipped " ++ toString a.sk ++ " ACs") else none⟩
      | .error e => .error e
    else .ok ⟨0, "N/A", some "No valid AC values", none⟩

/-- Loop state of `aggregate_to_kt`. -/
structure KTAcc where
  ws : Rat
  tw : Rat
  has : Bool
deriving DecidableEq

/-- One iteration of the `aggregate_to_kt` loop (lines 668-678): only
numeric PS values strictly greater than 0 are accumulated. -/
def ktStep (db : List (String × Rat)) (res : List (String × Value))
    (acc : KTAcc) (name : String) : KTAcc :=
  match res.lookup name with
  | none => acc
  | some v =>
    let w := acWeight db name
    match v with
    | .num q => if 0 < q then ⟨acc.ws + q * w, acc.tw + w, true⟩ else acc
    | .str _ => acc

/-- `SmartCalculationEngine.aggregate_to_kt` for a located KT whose PS
list `ktPss` has already been resolved (directly or through the
`key_topic` back-reference fallback of lines 654-659). -/
def aggregate_to_kt (ktPss : List String) (ktTh : Thresholds)
    (db : List (String × Rat)) (res : List (String × Value)) :
    Except Unit AggOutcome :=
  if ktPss.isEmpty then .ok ⟨0, "N/A", some "No PSs found for KT", none⟩
  else
    let a := ktPss.foldl (ktStep db res) ⟨0, 0, false⟩
    if 0 < a.tw ∧ a.has = true then
      match apply_thresholds_smart (a.ws / a.tw) ktTh with
      | .ok rating => .ok ⟨a.ws / a.tw, rating, none, none⟩
      | .error e => .error e
    else .ok ⟨0, "N/A", some "No valid PS values", none⟩

/-- The `value` of an aggregation result, `none` when the aggregation
raised. -/
def aggValue : Except Unit AggOutcome → Option Rat
  | .ok o => some o.value
  | .error _ => none

/-- The `rating` of an aggregation result, `none` when the aggregation
raised. -/
def aggRating : Except Unit AggOutcome → Option String
  | .ok o => some o.rating
  | .error _ => none

/-- `WeightedAggregator.aggregate_to_kt` from
`formula_parser_complete.py` (percent scale), restricted to its computed
`value`: child values are capped at 100, children with non-positive
metadata weight are excluded, zero total weight falls back to the plain
average of the uncapped values, and the result is capped at 100. -/
def w_aggregate_to_kt (allPss : List (String × Rat))
    (psResults : List (String × Rat)) : Rat :=
  let contribs := psResults.map fun nv =>
    let w := (allPss.lookup nv.1).getD 0
    let v := min nv.2 100
    if 0 < w then (v * (w / 100), w / 100) else (0, 0)
  let ws := (contribs.map Prod.fst).sum
  let tw := (contribs.map Prod.snd).sum
  let ktValue :=
    if 0 < tw then ws / tw
    else
      let values := psResults.map Prod.snd
      if values.isEmpty then 0 else values.sum / values.length
  min ktValue 100

/-- `WeightedAggregator.calculate_overall`: the plain average of the
numeric KT values, each capped at 100; 0 when none are numeric. -/
def calculate_overall (ktResults : List Value) : Rat :=
  let values := ktResults.filterMap fun v =>
    match v with
    | .num q => some (min q 100)
    | .str _ => none
  if values.isEmpty then 0 else values.sum / values.length

/-! ## Helper lemmas -/

/-- The only exception eager evaluation can raise is `ZeroDivisionError`:
`pyEval` fails exactly on expressions that reach a division by zero. -/
theorem pyEval_error_iff (e : Expr) :
    pyEval e = .error () ↔ hitsDivByZero e = true := by
  induction e with
  | num q => simp [pyEval, hitsDivByZero]
  | neg e ih =>
    simp only [pyEval, hitsDivByZero, ← ih]
    cases pyEval e <;> simp
  | add l r ihl ihr =>
    simp only [pyEval, hitsDivByZero, Bool.or_eq_true, ← ihl, ← ihr]
    cases pyEval l <;> cases pyEval r <;> simp
  | sub l r ihl ihr =>
    simp only [pyEval, hitsDivByZero, Bool.or_eq_true, ← ihl, ← ihr]
    cases pyEval l <;> cases pyEval r <;> simp
  | mul l r ihl ihr =>
    simp only [pyEval, hitsDivByZero, Bool.or_eq_true, ← ihl, ← ihr]
    cases pyEval l <;> cases pyEval r <;> simp
  | div l r ihl ihr =>
    simp only [pyEval, hitsDivByZero, Bool.or_eq_true, ← ihl, ← ihr]
    cases pyEval l <;> cases pyEval r <;> simp

/-- The default band is always one of the three ratings. -/
theorem default_band_mem (v : Rat) :
    default_band v = "Good" ∨ default_band v = "Satisfactory" ∨
      default_band v = "Needs Improvement" := by
  unfold default_band
  split
  · exact Or.inl rfl
  · split
    · exact Or.inr (Or.inl rfl)
    · exact Or.inr (Or.inr rfl)

/-- On a well-formed threshold triple, `_apply_thresholds_smart` never
raises and its answer is the first matching band, with the default bands
as the final fallback. -/
theorem apply_thresholds_ok (v : Rat) (th : Thresholds)
    (h : well_formed th = true) :
    apply_thresholds_smart v th =
      .ok (if all_empty th = true then default_band v
           else if good_matches_th v th = true then "Good"
           else if sat_matches_th v th = true then "Satisfactory"
           else if needs_matches_th v th = true then "Needs Improvement"
           else default_band v) := by
  unfold well_formed at h
  simp only [Bool.and_eq_true] at h
  obtain ⟨⟨hg, hs⟩, hn⟩ := h
  rcases hgp : parse_threshold th.good with e | g
  · rw [hgp] at hg; simp [Except.toBool] at hg
  rcases hsp : parse_threshold th.satisfactory with e | s
  · rw [hsp] at hs; simp [Except.toBool] at hs
  rcases hnp : parse_threshold th.needsImprovement with e | n
  · rw [hnp] at hn; simp [Except.toBool] at hn
  unfold apply_thresholds_smart good_matches_th sat_matches_th needs_matches_th
  simp only [hgp, hsp, hnp]
  by_cases he : all_empty th = true
  · simp [he]
  · simp only [he, if_false]
    split_ifs <;> simp_all

/-- The predicate deciding whether a child contributes to the weighted
average in `aggregate_to_ps`: present, numeric, strictly positive and not
flagged for review. -/
def psValid (res : List (String × ACResult)) (name : String) : Bool :=
  match res.lookup name with
  | some r =>
    match r.value with
    | .num v => decide (0 < v) && !r.needsReview
    | .str _ => false
  | none => false

/-- The numerator contribution of one child in `aggregate_to_ps`. -/
def psContribW (db : List (String × Rat)) (res : List (String × ACResult))
    (name : String) : Rat :=
  match res.lookup name with
  | some r =>
    match r.value with
    | .num v => if 0 < v ∧ r.needsReview = false then v * acWeight db name else 0
    | .str _ => 0
  | none => 0

/-- The denominator contribution of one child in `aggregate_to_ps`. -/
def psContribT (db : List (String × Rat)) (res : List (String × ACResult))
    (name : String) : Rat :=
  match res.lookup name with
  | some r =>
    match r.value with
    | .num v => if 0 < v ∧ r.needsReview = false then acWeight db name else 0
    | .str _ => 0
  | none => 0

/-- The predicate deciding whether a child lands in `skipped_acs`. -/
def psSkip (res : List (String × ACResult)) (name : String) : Bool :=
  match res.lookup name with
  | some r =>
    match r.value with
    | .num v =>
      if 0 < v then r.needsReview
      else decide (r.typ = "qualitative" ∨ r.typ = "descriptive")
    | .str _ => decide (r.typ = "qualitative" ∨ r.typ = "descriptive")
  | none => false

/-- One step of the `aggregate_to_ps` loop, written componentwise. -/
theorem psStep_eq (db : List (String × Rat)) (res : List (String × ACResult))
    (acc : PSAcc) (name : String) :
    psStep db res acc name =
      ⟨acc.ws + psContribW db res name, acc.tw + psContribT db res name,
       acc.has || psValid res name,
       acc.sk + (if psSkip res name = true then 1 else 0)⟩ := by
  unfold psStep psContribW psContribT psValid psSkip
  rcases h : res.lookup name with _ | r
  · simp
  · rcases hv : r.value with v | s
    · by_cases h0 : 0 < v
      · by_cases hr : r.needsReview <;> simp [hv, h0, hr]
      · by_cases ht : r.typ = "qualitative" ∨ r.typ = "descriptive" <;>
          simp [hv, h0, ht]
    · by_cases ht : r.typ = "qualitative" ∨ r.typ = "descriptive" <;> simp [hv, ht]

/-- The `aggregate_to_ps` loop, in closed form: the four accumulator
components are a sum, a sum, a disjunction and a count over the child
list. -/
theorem foldPS_eq (db : List (String × Rat)) (res : List (String × ACResult))
    (l : List String) (acc : PSAcc) :
    l.foldl (psStep db res) acc =
      ⟨acc.ws + (l.map (psContribW db res)).sum,
       acc.tw + (l.map (psContribT db res)).sum,
       acc.has || l.any (psValid res),
       acc.sk + l.countP (psSkip res)⟩ := by
  induction l generalizing acc with
  | nil => simp
  | cons x t ih =>
    simp only [List.foldl_cons, ih, psStep_eq, List.map_cons, List.sum_cons,
      List.any_cons, List.countP_cons, PSAcc.mk.injEq]
    refine ⟨by ring, by ring, by rw [Bool.or_assoc], by omega⟩

/-- A child that fails the validity test contributes zero to the
numerator. -/
theorem psContribW_zero (db : List (String × Rat)) (res : List (String × ACResult))
    (name : String) (h : psValid res name = false) : psContribW db res name = 0 := by
  unfold psValid at h
  unfold psContribW
  rcases hl : res.lookup name with _ | r <;> simp only [hl] at h ⊢
  rcases hv : r.value with v | s <;> simp only [hv] at h ⊢
  by_cases h0 : 0 < v
  · have hr : r.needsReview = true := by
      by_contra hr
      simp [h0, hr] at h
    simp [hr]
  · simp [h0]

/-- A child that fails the validity test contributes zero to the
denominator. -/
theorem psContribT_zero (db : List (String × Rat)) (res : List (String × ACResult))
    (name : String) (h : psValid res name = false) : psContribT db res name = 0 := by
  unfold psValid at h
  unfold psContribT
  rcases hl : res.lookup name with _ | r <;> simp only [hl] at h ⊢
  rcases hv : r.value with v | s <;> simp only [hv] at h ⊢
  by_cases h0 : 0 < v
  · have hr : r.needsReview = true := by
      by_contra hr
      simp [h0, hr] at h
    simp [hr]
  · simp [h0]

/-- Inserting a non-contributing child anywhere in the child list leaves
the weighted sum, the total weight and the `has_values` flag of the
`aggregate_to_ps` loop unchanged. -/
theorem foldPS_insert_invalid (db : List (String × Rat))
    (res : List (String × ACResult)) (l₁ l₂ : List String) (x : String)
    (h : psValid res x = false) :
    ((l₁ ++ x :: l₂).foldl (psStep db res) ⟨0, 0, false, 0⟩).ws =
        ((l₁ ++ l₂).foldl (psStep db res) ⟨0, 0, false, 0⟩).ws ∧
      ((l₁ ++ x :: l₂).foldl (psStep db res) ⟨0, 0, false, 0⟩).tw =
        ((l₁ ++ l₂).foldl (psStep db res) ⟨0, 0, false, 0⟩).tw ∧
      ((l₁ ++ x :: l₂).foldl (psStep db res) ⟨0, 0, false, 0⟩).has =
        ((l₁ ++ l₂).foldl (psStep db res) ⟨0, 0, false, 0⟩).has := by
  simp only [foldPS_eq, List.map_append, List.map_cons, List.sum_append,
    List.sum_cons, List.any_append, List.any_cons]
  refine ⟨?_, ?_, ?_⟩
  · rw [psContribW_zero db res x h]; ring
  · rw [psContribT_zero db res x h]; ring
  · rw [h]; simp

/-! ## Claims -/

/-- Removing a non-contributing child from the child list leaves the
parent value and rating of `aggregate_to_ps` unchanged. -/
theorem agg_ps_drop_invalid (l₁ l₂ : List String) (x : String)
    (psTh : Thresholds) (db : List (String × Rat))
    (res : List (String × ACResult)) (h : psValid res x = false) :
    aggValue (aggregate_to_ps (l₁ ++ x :: l₂) psTh db res) =
        aggValue (aggregate_to_ps (l₁ ++ l₂) psTh db res) ∧
      aggRating (aggregate_to_ps (l₁ ++ x :: l₂) psTh db res) =
        aggRating (aggregate_to_ps (l₁ ++ l₂) psTh db res) := by
  obtain ⟨hws, htw, hhas⟩ := foldPS_insert_invalid db res l₁ l₂ x h
  unfold aggregate_to_ps
  by_cases hemp : l₁ ++ l₂ = []
  · obtain ⟨h1, h2⟩ := List.append_eq_nil.mp hemp
    subst h1; subst h2
    simp only [List.nil_append, List.isEmpty_cons, List.isEmpty_nil, if_true, if_false]
    have hfold := foldPS_eq db res [x] ⟨0, 0, false, 0⟩
    simp only [List.map_cons, List.map_nil, List.sum_cons, List.sum_nil,
      List.any_cons, List.any_nil, List.countP_cons, List.countP_nil,
      psContribW_zero db res x h, psContribT_zero db res x h, h] at hfold
    rw [hfold]
    norm_num [aggValue, aggRating]
  · have hne1 : ¬((l₁ ++ x :: l₂).isEmpty = true) := by simp
    have hne2 : ¬((l₁ ++ l₂).isEmpty = true) := by simp [hemp]
    rw [if_neg hne1, if_neg hne2]
    set A := (l₁ ++ x :: l₂).foldl (psStep db res) ⟨0, 0, false, 0⟩ with hA
    set B := (l₁ ++ l₂).foldl (psStep db res) ⟨0, 0, false, 0⟩ with hB
    show aggValue (if 0 < A.tw ∧ A.has = true then _ else _) =
        aggValue (if 0 < B.tw ∧ B.has = true then _ else _) ∧
      aggRating (if 0 < A.tw ∧ A.has = true then _ else _) =
        aggRating (if 0 < B.tw ∧ B.has = true then _ else _)
    rw [hws, htw, hhas]
    by_cases hc : 0 < B.tw ∧ B.has = true
    · rcases hr : apply_thresholds_smart (B.ws / B.tw) psTh with e | r <;>
        simp [hc, hr, aggValue, aggRating]
    · simp [hc, aggValue, aggRating]

/-- C6: a child in an invalid or unresolved state (absent result,
non-numeric value, non-positive value, or flagged `needs_review`) — which
covers the error/incomplete/qualitative/descriptive states — contributes
to neither the numerator nor the denominator of `aggregate_to_ps`:
removing it from the child list leaves the parent value and rating
unchanged (it is treated as absent, not as zero). -/
theorem c6_invalid_child_excluded (l₁ l₂ : List String) (x : String)
    (psTh : Thresholds) (db : List (String × Rat))
    (res : List (String × ACResult)) (h : psValid res x = false) :
    aggValue (aggregate_to_ps (l₁ ++ x :: l₂) psTh db res) =
        aggValue (aggregate_to_ps (l₁ ++ l₂) psTh db res) ∧
      aggRating (aggregate_to_ps (l₁ ++ x :: l₂) psTh db res) =
        aggRating (aggregate_to_ps (l₁ ++ l₂) psTh db res) :=
  agg_ps_drop_invalid l₁ l₂ x psTh db res h

/-- Witness for C6 at a concrete input: a PS with a contributing AC
(value 0.8, weight 50) and a qualitative AC; removing the qualitative
child changes neither value nor rating. -/
theorem c6_invalid_child_excluded_witness :
    aggValue (aggregate_to_ps (["AC1"] ++ "AC2" :: []) ⟨"", "", ""⟩
        [("AC1", 50)] [("AC1", ⟨.num (8/10), false, "quantitative"⟩),
          ("AC2", ⟨.str "Yes", false, "qualitative"⟩)]) =
      aggValue (aggregate_to_ps (["AC1"] ++ []) ⟨"", "", ""⟩
        [("AC1", 50)] [("AC1", ⟨.num (8/10), false, "quantitative"⟩),
          ("AC2", ⟨.str "Yes", false, "qualitative"⟩)]) :=
  (c6_invalid_child_excluded ["AC1"] [] "AC2" ⟨"", "", ""⟩ [("AC1", 50)]
    [("AC1", ⟨.num (8/10), false, "quantitative"⟩),
     ("AC2", ⟨.str "Yes", false, "qualitative"⟩)] (by decide)).1

/-- C9: `aggregate_to_ps` is invariant under any permutation of the child
list (the weighted sums, the validity flag and even the skipped count are
order-free), and re-running it on unchanged child results and weights
returns the identical outcome — the engine is a pure function of its
inputs, so the second conjunct is definitional. -/
theorem c9_aggregation_reorder_idempotent (l₁ l₂ : List String)
    (psTh : Thresholds) (db : List (String × Rat))
    (res : List (String × ACResult)) (hperm : l₁.Perm l₂) :
    aggregate_to_ps l₁ psTh db res = aggregate_to_ps l₂ psTh db res ∧
      aggregate_to_ps l₁ psTh db res = aggregate_to_ps l₁ psTh db res := by
  refine ⟨?_, rfl⟩
  unfold aggregate_to_ps
  have hemp : l₁.isEmpty = l₂.isEmpty := by
    rcases l₁ with _ | _ <;> rcases l₂ with _ | _ <;>
      first
        | rfl
        | exact absurd hperm (by simp [List.Perm.eq_nil, List.Perm.nil_eq])
  have hsumW : (l₁.map (psContribW db res)).sum = (l₂.map (psContribW db res)).sum :=
    (hperm.map (psContribW db res)).sum_eq
  have hsumT : (l₁.map (psContribT db res)).sum = (l₂.map (psContribT db res)).sum :=
    (hperm.map (psContribT db res)).sum_eq
  have hany : l₁.any (psValid res) = l₂.any (psValid res) := by
    cases h1 : l₁.any (psValid res) <;> cases h2 : l₂.any (psValid res) <;>
      try rfl
    · rw [List.any_eq_true] at h2
      obtain ⟨a, ha, hpa⟩ := h2
      have : l₁.any (psValid res) = true :=
        List.any_eq_true.mpr ⟨a, hperm.mem_iff.mpr ha, hpa⟩
      rw [h1] at this; exact absurd this (by simp)
    · rw [List.any_eq_true] at h1
      obtain ⟨a, ha, hpa⟩ := h1
      have : l₂.any (psValid res) = true :=
        List.any_eq_true.mpr ⟨a, hperm.mem_iff.mp ha, hpa⟩
      rw [h2] at this; exact absurd this (by simp)
  have hcount : l₁.countP (psSkip res) = l₂.countP (psSkip res) :=
    hperm.countP_eq _
  rw [foldPS_eq db res l₁, foldPS_eq db res l₂, hsumW, hsumT, hany, hcount, hemp]

/-- Witness for C9 at a concrete input: swapping the two ACs of a PS
leaves the aggregation outcome unchanged. -/
theorem c9_aggregation_reorder_idempotent_witness :
    aggregate_to_ps ["AC1", "AC2"] ⟨"", "", ""⟩ [("AC1", 60), ("AC2", 40)]
        [("AC1", ⟨.num (9/10), false, "quantitative"⟩),
         ("AC2", ⟨.num (7/10), false, "quantitative"⟩)] =
      aggregate_to_ps ["AC2", "AC1"] ⟨"", "", ""⟩ [("AC1", 60), ("AC2", 40)]
        [("AC1", ⟨.num (9/10), false, "quantitative"⟩),
         ("AC2", ⟨.num (7/10), false, "quantitative"⟩)] :=
  (c9_aggregation_reorder_idempotent ["AC1", "AC2"] ["AC2", "AC1"] ⟨"", "", ""⟩
    [("AC1", 60), ("AC2", 40)]
    [("AC1", ⟨.num (9/10), false, "quantitative"⟩),
     ("AC2", ⟨.num (7/10), false, "quantitative"⟩)]
    (List.Perm.swap "AC2" "AC1" [])).1

/-- A child whose looked-up value is numeric and not strictly positive
fails the `aggregate_to_ps` validity test. -/
theorem psValid_of_nonpos (res : List (String × ACResult)) (x : String)
    (r : ACResult) (q : Rat) (hl : res.lookup x = some r)
    (hv : r.value = .num q) (hq : q ≤ 0) : psValid res x = false := by
  unfold psValid
  simp only [hl, hv]
  simp [not_lt.mpr hq]

/-- One KT-loop step leaves the accumulator unchanged for a child whose
value is numeric and not strictly positive. -/
theorem ktStep_nonpos (db : List (String × Rat)) (res : List (String × Value))
    (acc : KTAcc) (x : String) (q : Rat) (hl : res.lookup x = some (.num q))
    (hq : q ≤ 0) : ktStep db res acc x = acc := by
  unfold ktStep
  rw [hl]
  simp [not_lt.mpr hq]

/-- C10: in the smart engine's aggregation a child counts only when its
value is numeric and strictly positive.  (1) A PS all of whose children
computed a non-positive number returns value 0, rating `'N/A'` and the
`'No valid AC values'` error instead of an average; (2) the same for a KT
with `'No valid PS values'`; (3) dropping a child whose computed value is
0 (or negative) changes neither the parent value nor its rating — it is
treated as if it had no data. -/
theorem c10_nonpositive_children_excluded :
    (∀ (psAcs : List String) (psTh : Thresholds) (db : List (String × Rat))
        (res : List (String × ACResult)), psAcs ≠ [] →
        (∀ n ∈ psAcs, ∃ r, res.lookup n = some r ∧ ∃ q, r.value = .num q ∧ q ≤ 0) →
        aggregate_to_ps psAcs psTh db res =
          .ok ⟨0, "N/A", some "No valid AC values", none⟩) ∧
      (∀ (ktPss : List String) (ktTh : Thresholds) (db : List (String × Rat))
          (res : List (String × Value)), ktPss ≠ [] →
          (∀ n ∈ ktPss, ∃ q, res.lookup n = some (.num q) ∧ q ≤ 0) →
          aggregate_to_kt ktPss ktTh db res =
            .ok ⟨0, "N/A", some "No valid PS values", none⟩) ∧
      (∀ (l₁ l₂ : List String) (x : String) (psTh : Thresholds)
          (db : List (String × Rat)) (res : List (String × ACResult)),
          (∃ r, res.lookup x = some r ∧ ∃ q, r.value = .num q ∧ q ≤ 0) →
          aggValue (aggregate_to_ps (l₁ ++ x :: l₂) psTh db res) =
              aggValue (aggregate_to_ps (l₁ ++ l₂) psTh db res) ∧
            aggRating (aggregate_to_ps (l₁ ++ x :: l₂) psTh db res) =
              aggRating (aggregate_to_ps (l₁ ++ l₂) psTh db res)) := by
  refine ⟨?_, ?_, ?_⟩
  · intro psAcs psTh db res hne hall
    unfold aggregate_to_ps
    rw [if_neg (by simp [hne])]
    rw [foldPS_eq]
    have hW : (psAcs.map (psContribW db res)).sum = 0 := by
      apply List.sum_eq_zero
      intro w hw
      obtain ⟨n, hn, rfl⟩ := List.mem_map.mp hw
      obtain ⟨r, hl, q, hv, hq⟩ := hall n hn
      exact psContribW_zero db res n (psValid_of_nonpos res n r q hl hv hq)
    have hT : (psAcs.map (psContribT db res)).sum = 0 := by
      apply List.sum_eq_zero
      intro w hw
      obtain ⟨n, hn, rfl⟩ := List.mem_map.mp hw
      obtain ⟨r, hl, q, hv, hq⟩ := hall n hn
      exact psContribT_zero db res n (psValid_of_nonpos res n r q hl hv hq)
    rw [hW, hT]
    norm_num
  · intro ktPss ktTh db res hne hall
    unfold aggregate_to_kt
    rw [if_neg (by simp [hne])]
    have hfold : ∀ (l : List String), (∀ n ∈ l, ∃ q, res.lookup n = some (.num q) ∧ q ≤ 0) →
        l.foldl (ktStep db res) ⟨0, 0, false⟩ = ⟨0, 0, false⟩ := by
      intro l
      induction l with
      | nil => intro _; rfl
      | cons y t ih =>
        intro hall2
        obtain ⟨q, hl, hq⟩ := hall2 y (List.mem_cons_self y t)
        rw [List.foldl_cons, ktStep_nonpos db res _ y q hl hq]
        exact ih fun n hn => hall2 n (List.mem_cons_of_mem y hn)
    rw [hfold ktPss hall]
    norm_num
  · intro l₁ l₂ x psTh db res hx
    obtain ⟨r, hl, q, hv, hq⟩ := hx
    exact agg_ps_drop_invalid l₁ l₂ x psTh db res (psValid_of_nonpos res x r q hl hv hq)

/-- Witness for C10 at concrete inputs: a PS whose two ACs both computed
0 yields the error outcome, a KT whose single PS computed 0 yields the
error outcome, and dropping a zero-valued AC leaves a sibling-only
average unchanged. -/
theorem c10_nonpositive_children_excluded_witness :
    aggregate_to_ps ["AC1", "AC2"] ⟨"", "", ""⟩ [("AC1", 60), ("AC2", 40)]
        [("AC1", ⟨.num 0, false, "quantitative"⟩),
         ("AC2", ⟨.num 0, false, "quantitative"⟩)] =
        .ok ⟨0, "N/A", some "No valid AC values", none⟩ ∧
      aggregate_to_kt ["PS1"] ⟨"", "", ""⟩ [("PS1", 50)] [("PS1", .num 0)] =
        .ok ⟨0, "N/A", some "No valid PS values", none⟩ ∧
      aggValue (aggregate_to_ps (["AC1"] ++ "AC0" :: []) ⟨"", "", ""⟩
          [("AC1", 60)] [("AC1", ⟨.num (9/10), false, "quantitative"⟩),
            ("AC0", ⟨.num 0, false, "quantitative"⟩)]) =
        aggValue (aggregate_to_ps (["AC1"] ++ []) ⟨"", "", ""⟩
          [("AC1", 60)] [("AC1", ⟨.num (9/10), false, "quantitative"⟩),
            ("AC0", ⟨.num 0, false, "quantitative"⟩)]) :=
  ⟨c10_nonpositive_children_excluded.1 ["AC1", "AC2"] ⟨"", "", ""⟩
      [("AC1", 60), ("AC2", 40)]
      [("AC1", ⟨.num 0, false, "quantitative"⟩),
       ("AC2", ⟨.num 0, false, "quantitative"⟩)] (by decide)
      (by
        intro n hn
        simp only [List.mem_cons, List.not_mem_nil, or_false] at hn
        rcases hn with rfl | rfl <;>
          exact ⟨⟨.num 0, false, "quantitative"⟩, by decide, 0, rfl, by decide⟩),
    c10_nonpositive_children_excluded.2.1 ["PS1"] ⟨"", "", ""⟩ [("PS1", 50)]
      [("PS1", .num 0)] (by decide)
      (by
        intro n hn
        simp only [List.mem_cons, List.not_mem_nil, or_false] at hn
        subst hn
        exact ⟨0, by decide, by decide⟩),
    (c10_nonpositive_children_excluded.2.2 ["AC1"] [] "AC0" ⟨"", "", ""⟩
      [("AC1", 60)] [("AC1", ⟨.num (9/10), false, "quantitative"⟩),
        ("AC0", ⟨.num 0, false, "quantitative"⟩)]
      ⟨⟨.num 0, false, "quantitative"⟩, by decide, 0, rfl, by decide⟩).1⟩

/-- C2: whenever the substituted arithmetic expression contains a division
by zero (reached by eager evaluation), the engine's `try`/`except` around
`eval` never lets the exception escape: the result carries the sentinel
value 0 together with the error status (`rating 'N/A'`, `has_issues`
true), for every threshold configuration. -/
theorem c2_div_by_zero_sentinel (e : Expr) (th : Thresholds)
    (h : hitsDivByZero e = true) :
    (smart_engine_eval_step e th).value = 0 ∧
      (smart_engine_eval_step e th).rating = "N/A" ∧
      (smart_engine_eval_step e th).hasIssues = true := by
  have herr : pyEval e = .error () := (pyEval_error_iff e).mpr h
  unfold smart_engine_eval_step
  rw [herr]
  exact ⟨rfl, rfl, rfl⟩

/-- Witness for C2 at a concrete input: `10 + 2/0` hits a division by
zero and the engine reports value 0, rating `'N/A'` and an issue flag. -/
theorem c2_div_by_zero_sentinel_witness :
    hitsDivByZero (.add (.num 10) (.div (.num 2) (.num 0))) = true ∧
      (smart_engine_eval_step (.add (.num 10) (.div (.num 2) (.num 0)))
          ⟨">0.9", "0.7-0.9", "<0.7"⟩).value = 0 ∧
      (smart_engine_eval_step (.add (.num 10) (.div (.num 2) (.num 0)))
          ⟨">0.9", "0.7-0.9", "<0.7"⟩).rating = "N/A" ∧
      (smart_engine_eval_step (.add (.num 10) (.div (.num 2) (.num 0)))
          ⟨">0.9", "0.7-0.9", "<0.7"⟩).hasIssues = true :=
  ⟨by decide,
    c2_div_by_zero_sentinel (.add (.num 10) (.div (.num 2) (.num 0)))
      ⟨">0.9", "0.7-0.9", "<0.7"⟩ (by decide)⟩

/-- An all-empty threshold triple can match no band. -/
theorem matches_th_of_all_empty (v : Rat) (th : Thresholds)
    (he : all_empty th = true) :
    good_matches_th v th = false ∧ sat_matches_th v th = false ∧
      needs_matches_th v th = false := by
  unfold all_empty at he
  simp only [decide_eq_true_eq] at he
  obtain ⟨h1, h2, h3⟩ := he
  unfold good_matches_th sat_matches_th needs_matches_th
  rw [h1, h2, h3]
  exact ⟨rfl, rfl, rfl⟩

/-- C4: the rating classifier is total on well-formed threshold triples —
it never raises and returns exactly one of Good, Satisfactory or Needs
Improvement — and the thresholds are tried in the fixed precedence order
Good, then Satisfactory, then Needs Improvement, the first matching band
winning. -/
theorem c4_rating_classifier_total (v : Rat) (th : Thresholds)
    (h : well_formed th = true) :
    ∃ r, apply_thresholds_smart v th = .ok r ∧
      (r = "Good" ∨ r = "Satisfactory" ∨ r = "Needs Improvement") ∧
      (good_matches_th v th = true → r = "Good") ∧
      (good_matches_th v th = false → sat_matches_th v th = true →
        r = "Satisfactory") ∧
      (good_matches_th v th = false → sat_matches_th v th = false →
        needs_matches_th v th = true → r = "Needs Improvement") := by
  refine ⟨_, apply_thresholds_ok v th h, ?_, ?_, ?_, ?_⟩
  · split_ifs <;>
      first
        | exact default_band_mem v
        | exact Or.inl rfl
        | exact Or.inr (Or.inl rfl)
        | exact Or.inr (Or.inr rfl)
  · intro hg
    split_ifs with h1
    · exact absurd (matches_th_of_all_empty v th h1).1 (by simp [hg])
    · rfl
  · intro hg hs
    split_ifs with h1
    · exact absurd (matches_th_of_all_empty v th h1).2.1 (by simp [hs])
    all_goals simp_all
  · intro hg hs hn
    split_ifs with h1
    · exact absurd (matches_th_of_all_empty v th h1).2.2 (by simp [hn])
    all_goals simp_all

/-- Witness for C4 at the specification's own example: value 0.92 against
good `'>0.95'`, satisfactory `'0.85-0.95'`, needs improvement `'<0.85'`
is classified, and since Good does not match while Satisfactory does, the
answer is `'Satisfactory'`. -/
theorem c4_rating_classifier_total_witness :
    apply_thresholds_smart (92/100) ⟨">0.95", "0.85-0.95", "<0.85"⟩ =
      .ok "Satisfactory" := by
  obtain ⟨r, heq, _, _, hsat, _⟩ :=
    c4_rating_classifier_total (92/100) ⟨">0.95", "0.85-0.95", "<0.85"⟩
      (by decide)
  rw [heq, hsat (by decide) (by decide)]

/-- C7: for every non-empty collection of computed (numeric) Key Topic
values the overall top-level score is their unweighted arithmetic mean —
KT weights are not applied at the top level — and every KT value computed
by `WeightedAggregator.aggregate_to_kt` is capped at 100, so the cap
inside `calculate_overall` never disturbs the mean on computed results. -/
theorem c7_overall_unweighted_mean :
    (∀ (qs : List Rat), qs ≠ [] → (∀ q ∈ qs, q ≤ 100) →
        calculate_overall (qs.map Value.num) = qs.sum / qs.length) ∧
      ∀ (allPss : List (String × Rat)) (psResults : List (String × Rat)),
        w_aggregate_to_kt allPss psResults ≤ 100 := by
  constructor
  · intro qs hne hle
    unfold calculate_overall
    have hmap : (qs.map Value.num).filterMap
        (fun v => match v with
          | .num q => some (min q 100)
          | .str _ => none) = qs.map (fun q => min q 100) := by
      rw [List.filterMap_map]
      exact congrFun (List.filterMap_eq_map fun q => min q 100) qs
    have hid : qs.map (fun q => min q 100) = qs := by
      rw [List.map_congr_left fun q hq => min_eq_left (hle q hq)]
      exact List.map_id qs
    simp only [hmap, hid]
    rw [if_neg (by simp [hne])]
  · intro allPss psResults
    unfold w_aggregate_to_kt
    exact min_le_right _ _

/-- Witness for C7 at a concrete input: three KT values 0.9, 0.7 and 0.5
average to 0.7, and a `WeightedAggregator` KT aggregation is at most
100. -/
theorem c7_overall_unweighted_mean_witness :
    calculate_overall [Value.num (9/10), Value.num (7/10), Value.num (5/10)] =
        ((9/10 : Rat) + 7/10 + 5/10) / 3 ∧
      w_aggregate_to_kt [("PS1", 60)] [("PS1", 80)] ≤ 100 := by
  constructor
  · have h := c7_overall_unweighted_mean.1 [9/10, 7/10, 5/10] (by decide)
      (by intro q hq; fin_cases hq <;> decide)
    simp only [List.map_cons, List.map_nil] at h
    rw [h]
    norm_num
  · exact c7_overall_unweighted_mean.2 [("PS1", 60)] [("PS1", 80)]

/-- Modelled from the spec: the weighted average
`value = Σ(child.value × child.weight) / Σ(child.weight)` over children
given as (weight, value) pairs. -/
def spec_weighted_average (children : List (Rat × Rat)) : Rat :=
  (children.map fun c => c.2 * c.1).sum / (children.map Prod.fst).sum

/-- The effective weight used by the engine:
`float(ac_data.get('weight', 1.0) or 1.0)` turns a stored weight of 0
into 1. -/
def effW (w : Rat) : Rat := if w = 0 then 1 else w

/-- Looking a child's name up in an association list built over a
duplicate-free child list returns that child's entry. -/
theorem lookup_map_of_nodup {β : Type} (l : List (String × Rat × Rat))
    (g : String × Rat × Rat → β) (c : String × Rat × Rat)
    (hnd : (l.map Prod.fst).Nodup) (hc : c ∈ l) :
    (l.map fun e => (e.1, g e)).lookup c.1 = some (g c) := by
  induction l with
  | nil => cases hc
  | cons x t ih =>
    rcases List.mem_cons.mp hc with rfl | hc
    · simp [List.lookup]
    · have hx : x.1 ≠ c.1 := by
        intro hcontra
        have : c.1 ∈ t.map Prod.fst := List.mem_map_of_mem Prod.fst hc
        rw [← hcontra] at this
        exact (List.nodup_cons.mp (by simpa using hnd)).1 this
      have hbeq : (c.1 == x.1) = false := by
        simp [Ne.symm hx]
      simp only [List.map_cons, List.lookup, hbeq]
      exact ih (List.nodup_cons.mp (by simpa using hnd)).2 hc

/-- The engine weight of a listed child is its stored weight with the
zero-to-one replacement applied. -/
theorem acWeight_at_child (acs : List (String × Rat × Rat))
    (c : String × Rat × Rat) (hnd : (acs.map Prod.fst).Nodup) (hc : c ∈ acs) :
    acWeight (acs.map fun e => (e.1, e.2.1)) c.1 = effW c.2.1 := by
  unfold acWeight effW
  rw [lookup_map_of_nodup acs (fun e => e.2.1) c hnd hc]

/-- The canonical result list for a list of numeric children. -/
def quantResults (acs : List (String × Rat × Rat)) : List (String × ACResult) :=
  acs.map fun e => (e.1, ⟨.num e.2.2, false, "quantitative"⟩)

/-- A listed positive-valued child contributes value times effective
weight to the numerator. -/
theorem psContribW_at_child (acs : List (String × Rat × Rat))
    (c : String × Rat × Rat) (hnd : (acs.map Prod.fst).Nodup) (hc : c ∈ acs)
    (hv : 0 < c.2.2) :
    psContribW (acs.map fun e => (e.1, e.2.1)) (quantResults acs) c.1 =
      c.2.2 * effW c.2.1 := by
  unfold psContribW quantResults
  rw [lookup_map_of_nodup acs (fun e => (⟨.num e.2.2, false, "quantitative"⟩ : ACResult)) c hnd hc]
  simp [hv, acWeight_at_child acs c hnd hc]

/-- A listed positive-valued child contributes its effective weight to
the denominator. -/
theorem psContribT_at_child (acs : List (String × Rat × Rat))
    (c : String × Rat × Rat) (hnd : (acs.map Prod.fst).Nodup) (hc : c ∈ acs)
    (hv : 0 < c.2.2) :
    psContribT (acs.map fun e => (e.1, e.2.1)) (quantResults acs) c.1 =
      effW c.2.1 := by
  unfold psContribT quantResults
  rw [lookup_map_of_nodup acs (fun e => (⟨.num e.2.2, false, "quantitative"⟩ : ACResult)) c hnd hc]
  simp [hv, acWeight_at_child acs c hnd hc]

/-- A listed positive-valued child passes the validity test. -/
theorem psValid_at_child (acs : List (String × Rat × Rat))
    (c : String × Rat × Rat) (hnd : (acs.map Prod.fst).Nodup) (hc : c ∈ acs)
    (hv : 0 < c.2.2) : psValid (quantResults acs) c.1 = true := by
  unfold psValid quantResults
  rw [lookup_map_of_nodup acs (fun e => (⟨.num e.2.2, false, "quantitative"⟩ : ACResult)) c hnd hc]
  simp [hv]

/-- C5 (amended): for a non-empty duplicate-free list of children with
non-negative stored weights and strictly positive calculated values,
`aggregate_to_ps` returns `Σ(value × w') / Σ(w')` where `w'` is the
stored weight with 0 (or a missing weight) replaced by 1 — the engine's
`or 1.0` default.  When every stored weight is nonzero this is exactly
the specification's `Σ(value × weight) / Σ(weight)`. -/
theorem c5_weighted_average_amended (acs : List (String × Rat × Rat))
    (psTh : Thresholds) (hth : well_formed psTh = true)
    (hnd : (acs.map Prod.fst).Nodup) (hne : acs ≠ [])
    (hval : ∀ c ∈ acs, 0 ≤ c.2.1 ∧ 0 < c.2.2) :
    ∃ o, aggregate_to_ps (acs.map Prod.fst) psTh
        (acs.map fun e => (e.1, e.2.1)) (quantResults acs) = .ok o ∧
      o.value = (acs.map fun e => e.2.2 * effW e.2.1).sum /
        (acs.map fun e => effW e.2.1).sum ∧
      o.error = none := by
  have hW : ((acs.map Prod.fst).map
        (psContribW (acs.map fun e => (e.1, e.2.1)) (quantResults acs))).sum =
      (acs.map fun e => e.2.2 * effW e.2.1).sum := by
    rw [List.map_map]
    congr 1
    apply List.map_congr_left
    intro c hc
    exact psContribW_at_child acs c hnd hc (hval c hc).2
  have hT : ((acs.map Prod.fst).map
        (psContribT (acs.map fun e => (e.1, e.2.1)) (quantResults acs))).sum =
      (acs.map fun e => effW e.2.1).sum := by
    rw [List.map_map]
    congr 1
    apply List.map_congr_left
    intro c hc
    exact psContribT_at_child acs c hnd hc (hval c hc).2
  have hAny : (acs.map Prod.fst).any (psValid (quantResults acs)) = true := by
    rcases hacs : acs with _ | ⟨c, t⟩
    · exact absurd hacs hne
    · rw [← hacs]
      apply List.any_eq_true.mpr
      refine ⟨c.1, ?_, psValid_at_child acs c hnd (by rw [hacs]; exact List.mem_cons_self c t) (hval c (by rw [hacs]; exact List.mem_cons_self c t)).2⟩
      rw [hacs]
      exact List.mem_map_of_mem Prod.fst (List.mem_cons_self c t)
  have hpos : 0 < (acs.map fun e => effW e.2.1).sum := by
    apply List.sum_pos
    · intro x hx
      obtain ⟨c, hc, rfl⟩ := List.mem_map.mp hx
      unfold effW
      rcases hval c hc with ⟨hw, _⟩
      split
      · exact one_pos
      · exact lt_of_le_of_ne hw (Ne.symm (by assumption))
    · simp [hne]
  unfold aggregate_to_ps
  rw [if_neg (by simp [hne])]
  simp only [foldPS_eq, zero_add, Bool.false_or, hW, hT, hAny]
  rw [if_pos ⟨hpos, trivial⟩, apply_thresholds_ok _ _ hth]
  exact ⟨_, rfl, rfl, rfl⟩

/-- C5 (counterexample): a PS whose children are (weight 60, value 0.9)
and (weight 0, value 0.7) has positive total weight 60 and valid values,
and the specification's weighted average is 0.9 — but the engine turns
the zero weight into 1.0 and answers 547/610 ≈ 0.897, not 0.9. -/
theorem c5_zero_weight_counterexample :
    aggValue (aggregate_to_ps ["A", "B"] ⟨"", "", ""⟩ [("A", 60), ("B", 0)]
        [("A", ⟨.num (9/10), false, "quantitative"⟩),
         ("B", ⟨.num (7/10), false, "quantitative"⟩)]) = some (547/610) ∧
      spec_weighted_average [((60 : Rat), (9/10 : Rat)), (0, 7/10)] = 9/10 ∧
      (547/610 : Rat) ≠ 9/10 :=
  ⟨by decide, by decide, by decide⟩

/-- Witness for C5 at the specification's own example: a PS with two ACs
of weights 60 and 40 and values 0.9 and 0.7 aggregates to 0.82. -/
theorem c5_weighted_average_witness :
    aggValue (aggregate_to_ps ["AC1", "AC2"] ⟨"", "", ""⟩
        [("AC1", 60), ("AC2", 40)]
        [("AC1", ⟨.num (9/10), false, "quantitative"⟩),
         ("AC2", ⟨.num (7/10), false, "quantitative"⟩)]) = some (82/100) := by
  obtain ⟨o, heq, hv, _⟩ := c5_weighted_average_amended
    [("AC1", 60, 9/10), ("AC2", 40, 7/10)] ⟨"", "", ""⟩ (by decide) (by decide)
    (by decide) (by decide)
  simp only [quantResults, List.map_cons, List.map_nil] at heq hv
  rw [heq]
  simp only [aggValue]
  rw [hv]
  norm_num [effW]

/-- The substring-branch score lies between 0.95 and 0.98. -/
theorem score_substring_bounds (b f : List Char) :
    95/100 ≤ score_substring b f ∧ score_substring b f ≤ 98/100 := by
  unfold score_substring
  exact ⟨le_max_left _ _, max_le (by norm_num) (min_le_right _ _)⟩

/-- The subset-branch score lies between 0 and 0.9 (for a duplicate-free
formula word set, as `find_matching_dps` always passes). -/
theorem score_subset_bounds (fw dpW : List String) (hnd : fw.Nodup) :
    0 ≤ score_subset fw dpW ∧ score_subset fw dpW ≤ 9/10 := by
  unfold score_subset
  split
  case isTrue h =>
    obtain ⟨hfw, hall⟩ := h
    have hsub : fw ⊆ dpW := by
      intro w hw
      exact of_decide_eq_true (List.all_eq_true.mp hall w hw)
    have hlen : fw.length ≤ dpW.length :=
      (List.subperm_of_subset hnd hsub).length_le
    have hdpne : dpW ≠ [] := by
      rcases hfwcons : fw with _ | ⟨w, t⟩
      · exact absurd hfwcons hfw
      · intro hd
        rw [hd] at hsub
        exact List.not_mem_nil w (hsub (by rw [hfwcons]; exact List.mem_cons_self w t))
    have hdplen : (0 : Rat) < dpW.length := by
      have := List.length_pos.mpr hdpne
      exact_mod_cast this
    have hcov0 : (0 : Rat) ≤ (fw.length : Rat) / dpW.length :=
      div_nonneg (by positivity) (le_of_lt hdplen)
    have hcov1 : (fw.length : Rat) / dpW.length ≤ 1 := by
      rw [div_le_one hdplen]
      exact_mod_cast hlen
    rw [if_pos hdpne]
    constructor
    · exact le_max_left _ _
    · apply max_le (by norm_num)
      nlinarith
  case isFalse h => norm_num

/-- The overlap-branch score lies between 0 and 1.105 = 221/200 when the
incoming score does and the important word set is duplicate-free. -/
theorem score_overlap_bounds (s1 : Rat) (fw dpImp : List String)
    (hs0 : 0 ≤ s1) (hs1 : s1 ≤ 9/10) (himp : dpImp.Nodup) :
    0 ≤ score_overlap s1 fw dpImp ∧ score_overlap s1 fw dpImp ≤ 221/200 := by
  unfold score_overlap
  split
  case isFalse h => exact ⟨hs0, hs1.trans (by norm_num)⟩
  case isTrue h =>
    obtain ⟨hdp, hfw⟩ := h
    split
    case isFalse hc => exact ⟨hs0, hs1.trans (by norm_num)⟩
    case isTrue hc =>
      have hcnodup : (overlap_common fw dpImp).Nodup := himp.filter _
      have hcsub : (overlap_common fw dpImp) ⊆ fw := by
        intro w hw
        exact of_decide_eq_true (List.mem_filter.mp hw).2
      have hfwlen : (0 : Rat) < fw.length := by
        have := List.length_pos.mpr hfw
        exact_mod_cast this
      have hdplen : (0 : Rat) < dpImp.length := by
        have := List.length_pos.mpr hdp
        exact_mod_cast this
      have hfc0 : (0 : Rat) ≤ ((overlap_common fw dpImp).length : Rat) / fw.length :=
        div_nonneg (by positivity) (le_of_lt hfwlen)
      have hfc1 : ((overlap_common fw dpImp).length : Rat) / fw.length ≤ 1 := by
        rw [div_le_one hfwlen]
        exact_mod_cast (List.subperm_of_subset hcnodup hcsub).length_le
      have hdc0 : (0 : Rat) ≤ ((overlap_common fw dpImp).length : Rat) / dpImp.length :=
        div_nonneg (by positivity) (le_of_lt hdplen)
      have hdc1 : ((overlap_common fw dpImp).length : Rat) / dpImp.length ≤ 1 := by
        rw [div_le_one hdplen]
        exact_mod_cast List.length_filter_le _ _
      constructor
      · apply le_max_of_le_left hs0
      · apply max_le (hs1.trans (by norm_num))
        split
        case isTrue hb => nlinarith
        case isFalse hb => nlinarith

/-- The formula word set handed to the scorer is duplicate-free. -/
theorem formula_words_important_nodup (s : String) :
    (formula_words_important s).Nodup :=
  (List.nodup_dedup _).filter _

/-- The enhanced match score always lies between 0 and 1.105 = 221/200
when given a duplicate-free formula word set. -/
theorem score_dp_match_enhanced_bounds (dpName formula : String)
    (fw : List String) (hnd : fw.Nodup) :
    0 ≤ score_dp_match_enhanced dpName formula fw ∧
      score_dp_match_enhanced dpName formula fw ≤ 221/200 := by
  unfold score_dp_match_enhanced
  have himp : (dp_words_important dpName).Nodup := (List.nodup_dedup _).filter _
  split
  · norm_num
  split
  · have h := score_substring_bounds (base_lower dpName) (lowerList formula.toList)
    exact ⟨le_trans (by norm_num) h.1, h.2.trans (by norm_num)⟩
  split
  · norm_num
  · have h4 := score_subset_bounds fw (dp_words dpName) hnd
    exact score_overlap_bounds _ fw _ h4.1 h4.2 himp

/-- C8 (counterexample): for the formula `'budget cost'` and the data
point `'Cost Budget'`, the boosted word-overlap branch returns
1.0 × 0.85 × 1.3 = 1.105, so the match confidence exceeds 1 — and the
data point is returned in the match set with that confidence, since
1.105 ≥ 0.3. -/
theorem c8_confidence_above_one_counterexample :
    score_dp_match_enhanced "Cost Budget" (clean_text "budget cost")
        (formula_words_important (clean_text "budget cost")) = 221/200 ∧
      ¬(score_dp_match_enhanced "Cost Budget" (clean_text "budget cost")
          (formula_words_important (clean_text "budget cost")) ≤ 1) ∧
      ("Cost Budget", (1 : Rat)) ∈
        find_matching_dps "budget cost" [("Cost Budget", (1 : Rat))] :=
  ⟨by decide, by decide, by decide⟩

/-- C8 (amended): the match set returned by `find_matching_dps` consists
of exactly the data points whose confidence meets the call site's 0.3
keep-threshold, and the confidence score lies in the interval
[0, 1.105] — not [0, 1]: the 1.3 keyword boost of the word-overlap branch
can push it up to 221/200. -/
theorem c8_confidence_bounds_amended (formula : String)
    (dps : List (String × Rat)) :
    (∀ nv : String × Rat, nv ∈ find_matching_dps formula dps ↔
        nv ∈ dps ∧ 3/10 ≤ score_dp_match_enhanced nv.1 (clean_text formula)
          (formula_words_important (clean_text formula))) ∧
      ∀ dpName : String,
        0 ≤ score_dp_match_enhanced dpName (clean_text formula)
            (formula_words_important (clean_text formula)) ∧
          score_dp_match_enhanced dpName (clean_text formula)
            (formula_words_important (clean_text formula)) ≤ 221/200 := by
  constructor
  · intro nv
    unfold find_matching_dps
    rw [List.mem_filter]
    simp
  · intro dpName
    exact score_dp_match_enhanced_bounds dpName (clean_text formula) _
      (formula_words_important_nodup (clean_text formula))

/-- Witness for C8 at a concrete input: the matcher keeps
`'Earned Value (EV) (No.)'` for the formula
`'Earned Value (EV) / Planned Value (PV)'` (its abbreviation match scores
0.98 ≥ 0.3), and its score lies within the amended bounds. -/
theorem c8_confidence_bounds_amended_witness :
    ("Earned Value (EV) (No.)", (920000 : Rat)) ∈
        find_matching_dps "Earned Value (EV) / Planned Value (PV)"
          [("Earned Value (EV) (No.)", (920000 : Rat))] ∧
      0 ≤ score_dp_match_enhanced "Earned Value (EV) (No.)"
          (clean_text "Earned Value (EV) / Planned Value (PV)")
          (formula_words_important
            (clean_text "Earned Value (EV) / Planned Value (PV)")) :=
  ⟨((c8_confidence_bounds_amended "Earned Value (EV) / Planned Value (PV)"
        [("Earned Value (EV) (No.)", (920000 : Rat))]).1
      ("Earned Value (EV) (No.)", (920000 : Rat))).mpr
      ⟨by decide, by decide⟩,
    ((c8_confidence_bounds_amended "Earned Value (EV) / Planned Value (PV)"
        [("Earned Value (EV) (No.)", (920000 : Rat))]).2
      "Earned Value (EV) (No.)").1⟩

/-- C1: the claim that no arbitrary code execution is reachable from
formula text fails on the code.  `evaluate_main_ag` substitutes
data-point values into the formula and passes the result to Python
`eval`: for the attacker-controlled formula `'AA-DP-1 + __import__'` the
string reaching `eval` is `'2.0 + __import__'`, which is not an
arithmetic-only expression — the substituted string is handed to a
general-purpose interpreter verbatim. -/
theorem c1_eval_reachability :
    mainAgEvalArg "AA-DP-1 + __import__" [("AA-DP-1", "2.0")] =
        some "2.0 + __import__" ∧
      isArithOnlyStr "2.0 + __import__" = false :=
  ⟨by decide, by decide⟩

/-- C3: the claim that an empty match set propagates a no-data result
with value 0 fails on the code.  With an empty data-point store (so the
matcher resolves nothing), `calculate_quantitative_proper` answers
through `_calculate_fallback` with the silent non-zero default 0.85,
`has_issues` false and a rating computed from the thresholds — not value
0 with an incomplete status. -/
theorem c3_no_match_silent_default :
    calc_quant_no_match_result "Earned Value (EV) / Planned Value (PV)"
        ([] : List (String × Rat)) ⟨"", "", ""⟩ =
        some ⟨85/100, "Satisfactory", false, some "Used fallback calculation"⟩ ∧
      (85/100 : Rat) ≠ 0 :=
  ⟨by decide, by decide⟩
